import Mathlib

/-!
# Verification of the NFL schedule resolver (`src/App.js`)

Shallow embedding of the core logic of `src/App.js`: the confidence ranker
(`transformEvents` / `rankEvents`), the retrying fetch loop of
`fetchDeepSchedule`, the top-level error surfacing of `initializeFetch`, and
the game normalizer `extractTeams` (odds extraction, moneyline formatting,
score extraction and game-status derivation).

Modelling conventions:
* JS numbers that hold moneylines, scores and ranks are modelled as `Int`
  (they come from `parseInt` / integer API payloads); `NaN` and absent
  numeric values are `none`.
* A JS field that may be `undefined` is an `Option`; where the source code
  distinguishes `undefined` from `null` (the odds field lookups), the value
  is `Option (Option Int)`: `none` is `undefined`, `some none` is `null`,
  `some (some v)` is a number.
* In-place mutation (`rankEvents` writing `confidenceRank` through shared
  object references) is made explicit as a function from the pre-call list
  to the post-call list.
* `await` / retries: one attempt of the retry loop's `try` block is a value
  `Except JsError α`; the loop is a function of the stream of attempt
  outcomes, returning the final result together with the list of backoff
  delays slept between attempts.
-/

/-! ## Confidence ranker (`transformEvents`, `rankEvents`) -/

/-- Sentinel used for games without a resolvable favorite
(`src/App.js:37`). -/
def tossUpSentinel : String := "Toss-Up / N/A"

/-- Winner extraction inside `transformEvents` (`src/App.js:34-60`): given the
away/home team abbreviations and the two parsed moneylines (`none` models a
line that is absent or fails `parseInt`, i.e. `NaN`), returns the
`expectedWinner` string and the numeric `winnerLine` (`none` models `NaN`). -/
def extractWinner (awayAbbr homeAbbr : String) (awayLineNum homeLineNum : Option Int) :
    String × Option Int :=
  match awayLineNum, homeLineNum with
  | some a, some h =>
    if a < 0 ∨ h < 0 then
      if a < h then (awayAbbr, some a) else (homeAbbr, some h)
    else if 0 < a ∧ 0 < h then
      if a < h then (awayAbbr, some a) else (homeAbbr, some h)
    else (tossUpSentinel, none)
  | _, _ => (tossUpSentinel, none)

/-- The event record built by `transformEvents` (`src/App.js:62-72`). -/
structure REvent where
  id : String
  awayTeam : String
  homeTeam : String
  awayOdds : Option String
  homeOdds : Option String
  expectedWinner : String
  winnerLine : Option Int
  status : String
  confidenceRank : Option Int
  deriving DecidableEq, Repr, Inhabited

/-- Filter predicate of `rankEvents` (`src/App.js:79`):
`e.expectedWinner !== 'Toss-Up / N/A' && !isNaN(e.winnerLine)`. -/
def isRankable (e : REvent) : Bool :=
  decide (e.expectedWinner ≠ tossUpSentinel) && e.winnerLine.isSome

/-- Numeric sort key of the comparator `(a, b) => a.winnerLine - b.winnerLine`
(`src/App.js:83`); every rankable event has `winnerLine = some _`, so the
default is never consulted on the sorted list. -/
def lineKey (e : REvent) : Int := e.winnerLine.getD 0

/-- The comparator of `src/App.js:83` as a `le` relation (stable, ascending). -/
def rankLE (a b : REvent) : Bool := decide (lineKey a ≤ lineKey b)

/-- `rankEvents` (`src/App.js:77-96`), value level: filter the rankable
events, stably sort them ascending by `winnerLine` (JS `Array.prototype.sort`
is stable), and assign `confidenceRank = totalGames - index`. The returned
list is the filtered/sorted/ranked one. -/
def rankEvents (events : List REvent) : List REvent :=
  let rankableEvents := events.filter isRankable
  let sorted := rankableEvents.mergeSort rankLE
  let totalGames := sorted.length
  sorted.enum.map fun p => { p.2 with confidenceRank := some ((totalGames : Int) - (p.1 : Int)) }

/-- One in-place write `event.confidenceRank = totalGames - index`
(`src/App.js:92`) applied to the backing store: `p = (index, storeIndex)`. -/
def rankWrite (totalGames : Nat) (acc : List REvent) (p : Nat × Nat) : List REvent :=
  acc.set p.2 { acc.getD p.2 default with confidenceRank := some ((totalGames : Int) - (p.1 : Int)) }

/-- The effect of `rankEvents` on the caller's array: `filter` keeps object
references, so the `forEach` of `src/App.js:88-93` writes `confidenceRank`
through to the elements of the input list.  This is the explicit-state
reading of that mutation: element `i` of the list stands for one JS object;
each rankable element receives its assigned rank, the others are untouched. -/
def rankEventsPost (events : List REvent) : List REvent :=
  let idxs := (List.range events.length).filter fun i => isRankable (events.getD i default)
  let sorted := idxs.mergeSort fun i j => rankLE (events.getD i default) (events.getD j default)
  let totalGames := sorted.length
  sorted.enum.foldl (rankWrite totalGames) events

/-! ## Retry loop of `fetchDeepSchedule` (`src/App.js:340-579`) -/

/-- JS `Error` values thrown inside `fetchDeepSchedule`.  The catch block
classifies by `err.message.includes("HTTP Error")` (`src/App.js:570`); the
only throw site whose message contains that text is the non-2xx check of
`src/App.js:352-354`, so the constructor records the classification. -/
inductive JsError where
  | httpError (status : Nat) (statusText : String)
  | otherError (msg : String)
  deriving DecidableEq, Repr

/-- The `message` of the error (`src/App.js:353` for HTTP errors). -/
def JsError.message : JsError → String
  | .httpError status statusText => "HTTP Error " ++ toString status ++ ": " ++ statusText
  | .otherError msg => msg

/-- `err.message.includes("HTTP Error")` (`src/App.js:570`). -/
def isHttpError : JsError → Bool
  | .httpError _ _ => true
  | .otherError _ => false

/-- Message of the throw after the loop (`src/App.js:578`). -/
def exhaustedRetriesMsg : String :=
  "Failed to fetch deep schedule data after multiple retries."

/-- The retry loop of `fetchDeepSchedule` (`src/App.js:345-578`):
`retries = 5`, `delay = 1000`; `attempts i` is the outcome of the whole `try`
body on iteration `i` (the extracted games, or the error thrown).  On an
error whose message contains "HTTP Error", with `i < retries - 1`, the loop
sleeps `delay`, doubles it and retries; any other error propagates at once.
The fuel is `retries - i`; the second component collects the delays slept. -/
def fetchGo {α : Type} (attempts : Nat → Except JsError α) :
    Nat → Nat → Nat → List Nat → Except JsError α × List Nat
  | 0, _, _, waits => (Except.error (JsError.otherError exhaustedRetriesMsg), waits.reverse)
  | fuel + 1, i, delay, waits =>
    match attempts i with
    | Except.ok v => (Except.ok v, waits.reverse)
    | Except.error e =>
      if isHttpError e && decide (i < 5 - 1) then
        fetchGo attempts fuel (i + 1) (delay * 2) (delay :: waits)
      else (Except.error e, waits.reverse)

/-- Entry point of the retry loop: `retries = 5`, initial `delay = 1000`. -/
def fetchDeepScheduleRetry {α : Type} (attempts : Nat → Except JsError α) :
    Except JsError α × List Nat :=
  fetchGo attempts 5 0 1000 []

/-- The exponential backoff prefix: delays slept before attempt `k` when the
first `k` attempts all failed with HTTP errors. -/
def backoffs (k : Nat) : List Nat := (List.range k).map fun j => 1000 * 2 ^ j

/-! ## Game normalizer (`extractTeams`, `src/App.js:142-333`) -/

/-- Moneyline fields of an `awayTeamOdds` / `homeTeamOdds` object.  The code
reads the PascalCase field `Moneyline` and the camelCase field `moneyLine`
(`src/App.js:182-184`, `193-195`).  `none` models a JS `undefined` field,
`some none` an explicit `null`, `some (some v)` a number. -/
structure OddsFields where
  Moneyline : Option (Option Int)
  moneyLine : Option (Option Int)
  deriving DecidableEq, Repr, Inhabited

/-- `src/App.js:182-184` / `193-195`: take the PascalCase `Moneyline` unless
it is `undefined`, else the camelCase `moneyLine`. -/
def selectML (o : OddsFields) : Option (Option Int) :=
  match o.Moneyline with
  | some v => some v
  | none => o.moneyLine

/-- A detail source for team odds (`oddsSource`, `src/App.js:172-174`): an
object exposing `awayTeamOdds` / `homeTeamOdds` (`none` = field missing). -/
structure OddsSource where
  awayTeamOdds : Option OddsFields
  homeTeamOdds : Option OddsFields
  deriving DecidableEq, Repr, Inhabited

/-- An element of the flat fallback array `primaryOdds.moneyLine`
(`src/App.js:202-207`). -/
structure MoneyLineItem where
  targetId : Option String
  moneyLine : Option (Option Int)
  deriving DecidableEq, Repr, Inhabited

/-- A per-book odds entry (`competition.odds[k]`): its own team-odds fields,
an optional `items` array of detail sources, and the optional flat fallback
array `moneyLine` (`none` models a missing or non-array field, matching the
`Array.isArray` guard of `src/App.js:202`). -/
structure OddsEntry where
  source : OddsSource
  items : Option (List OddsSource)
  moneyLine : Option (List MoneyLineItem)
  deriving DecidableEq, Repr, Inhabited

/-- `formatMoneyLine` (`src/App.js:166`):
`(ml !== null && ml !== undefined ? (ml > 0 ? '+' : '') + ml : null)`.
`none` models a `null`/`undefined` input and the returned `null`. -/
def formatMoneyLine : Option Int → Option String
  | none => none
  | some ml => some ((if 0 < ml then "+" else "") ++ toString ml)

/-- JS object property assignment `oddsMap[k] = v` on the odds map, modelled
as an association list (later assignments to the same key overwrite). -/
def mapSet (m : List (String × Option String)) (k : String) (v : Option String) :
    List (String × Option String) :=
  if (m.lookup k).isSome then
    m.map fun p => if p.1 = k then (k, v) else p
  else m ++ [(k, v)]

/-- `src/App.js:172-174`: the detail source is `items[0]` when a non-empty
`items` array is present, else the primary entry itself. -/
def oddsSourceOf (primaryOdds : OddsEntry) : OddsSource :=
  match primaryOdds.items with
  | some (item :: _) => item
  | _ => primaryOdds.source

/-- One guarded insertion of `src/App.js:179-187` (away) / `190-198` (home):
requires the competitor's team id to be present and truthy (non-empty) and
the team-odds object to be present; inserts only when the selected moneyline
field is not `undefined`. -/
def insertTeamOdds (m : List (String × Option String)) (tid : Option String)
    (fieldsOpt : Option OddsFields) : List (String × Option String) :=
  match tid, fieldsOpt with
  | some t, some fields =>
    if t ≠ "" then
      match selectML fields with
      | some v => mapSet m t (formatMoneyLine v)
      | none => m
    else m
  | _, _ => m

/-- One step of the fallback `forEach` of `src/App.js:203-207`:
`if (ml.targetId && ml.moneyLine !== undefined) oddsMap[ml.targetId] = ...`. -/
def fallbackStep (acc : List (String × Option String)) (ml : MoneyLineItem) :
    List (String × Option String) :=
  match ml.targetId, ml.moneyLine with
  | some t, some v => if t ≠ "" then mapSet acc t (formatMoneyLine v) else acc
  | _, _ => acc

/-- The odds-extraction block of `src/App.js:157-209`: builds the map from
team id to formatted moneyline.  `awayId` / `homeId` are
`awayComp.team?.id` / `homeComp.team?.id` (`none` when the competitor, team
or id is missing).  The flat fallback array is consulted only when
`Object.keys(oddsMap).length === 0` after the primary attempt. -/
def buildOddsMap (oddsList : Option (List OddsEntry)) (awayId homeId : Option String) :
    List (String × Option String) :=
  match oddsList with
  | some (primaryOdds :: _) =>
    let src := oddsSourceOf primaryOdds
    let m2 := insertTeamOdds (insertTeamOdds [] awayId src.awayTeamOdds) homeId src.homeTeamOdds
    if m2.isEmpty then
      match primaryOdds.moneyLine with
      | some mls => mls.foldl fallbackStep m2
      | none => m2
    else m2
  | _ => []

/-- `src/App.js:220`: `teamId && oddsMap[teamId] ? oddsMap[teamId] : 'N/A'`.
The id and the stored value are truthy only as non-empty strings (a stored
`null` is falsy). -/
def lookupTeamOdds (oddsMap : List (String × Option String)) (teamId : Option String) :
    String :=
  match teamId with
  | some tid =>
    if tid ≠ "" then
      match oddsMap.lookup tid with
      | some (some s) => if s ≠ "" then s else "N/A"
      | _ => "N/A"
    else "N/A"
  | none => "N/A"

/-- Raw `comp.score` values as classified by `src/App.js:242-252`: a JS
number, or a string for which `Number(rawScore)` is not `NaN`, is
`numeric` (carrying that value); a non-numeric string or a `NaN` number is
`nonNumeric`; a missing field or a `$ref` object is `missing` (the
`typeof` guard skips both the same way). -/
inductive JsScore where
  | missing
  | numeric (n : Int)
  | nonNumeric
  deriving DecidableEq, Repr, Inhabited

/-- The `score` variable after `src/App.js:242-252`: `Number or null`. -/
def scoreNum : JsScore → Option Int
  | JsScore.numeric n => some n
  | _ => none

/-- Displayed team status (`homeStatus` / `awayStatus`). -/
inductive TeamStatus where
  | upcoming
  | winner
  | loser
  | tie
  | inProgress
  deriving DecidableEq, Repr, Inhabited

/-- A displayed score: a number, or the sentinel dash `'-'`. -/
inductive Disp where
  | num (n : Int)
  | dash
  deriving DecidableEq, Repr, Inhabited

/-- `score !== null ? score : '-'` (`src/App.js:270-271`). -/
def dispOf : Option Int → Disp
  | some n => Disp.num n
  | none => Disp.dash

/-- JS truthiness of an optional string: present and non-empty. -/
def jsTruthyStr : Option String → Bool
  | some s => decide (s ≠ "")
  | none => false

/-- Game-status determination (`src/App.js:264-301`).  Takes
`event.statusState` and the extracted numeric scores; returns
`((homeStatus, awayStatus), (finalHomeScore, finalAwayScore))`. -/
def deriveStatus (statusState : Option String) (homeScoreNum awayScoreNum : Option Int) :
    (TeamStatus × TeamStatus) × (Disp × Disp) :=
  let finalHomeScore := dispOf homeScoreNum
  let finalAwayScore := dispOf awayScoreNum
  if statusState = some "post" then
    match homeScoreNum, awayScoreNum with
    | some h, some a =>
      if a < h then
        ((TeamStatus.winner, TeamStatus.loser), (finalHomeScore, finalAwayScore))
      else if h < a then
        ((TeamStatus.loser, TeamStatus.winner), (finalHomeScore, finalAwayScore))
      else
        ((TeamStatus.tie, TeamStatus.tie), (finalHomeScore, finalAwayScore))
    | _, _ =>
      ((TeamStatus.upcoming, TeamStatus.upcoming), (finalHomeScore, finalAwayScore))
  else if jsTruthyStr statusState && decide (statusState ≠ some "pre") then
    ((TeamStatus.inProgress, TeamStatus.inProgress), (finalHomeScore, finalAwayScore))
  else
    ((TeamStatus.upcoming, TeamStatus.upcoming), (Disp.dash, Disp.dash))

/-- A team logo entry (`comp.team?.logos?.[0]?.href`, `src/App.js:216`). -/
structure Logo where
  href : Option String
  deriving DecidableEq, Repr, Inhabited

/-- A record entry of `comp.team?.records` (`src/App.js:227-238`).  `rtype`
is the JS field `type` (a Lean keyword). -/
structure TeamRecord where
  rtype : Option String
  name : Option String
  summary : Option String
  displayValue : Option String
  deriving DecidableEq, Repr, Inhabited

/-- A (resolved) team object. -/
structure Team where
  id : Option String
  displayName : Option String
  shortDisplayName : Option String
  abbreviation : Option String
  logos : Option (List Logo)
  records : Option (List TeamRecord)
  deriving DecidableEq, Repr, Inhabited

/-- A competitor of a competition. -/
structure Competitor where
  homeAway : Option String
  team : Option Team
  score : JsScore
  deriving DecidableEq, Repr, Inhabited

/-- A competition (`event.competitions[0]`). -/
structure Competition where
  competitors : Option (List Competitor)
  odds : Option (List OddsEntry)
  deriving DecidableEq, Repr, Inhabited

/-- An event as seen by `extractTeams` after the tier patching. -/
structure Event where
  name : Option String
  statusState : Option String
  competitions : Option (List Competition)
  deriving DecidableEq, Repr, Inhabited

/-- A JS `||` chain over optional strings: the first truthy (present and
non-empty) value, if any. -/
def firstTruthy : List (Option String) → Option String
  | [] => none
  | some s :: rest => if s ≠ "" then some s else firstTruthy rest
  | none :: rest => firstTruthy rest

/-- `x || d` on an optional string against a default. -/
def jsOr (o : Option String) (d : String) : String :=
  match firstTruthy [o] with
  | some s => s
  | none => d

/-- The record extraction of `src/App.js:222-239`: find the overall record
(`type === 'total'` or `name?.toLowerCase() === 'overall'`), take its
truthy `summary`, else its truthy `displayValue`, else `'N/A'`. -/
def recordOf (team : Option Team) : String :=
  let found :=
    match team.bind (fun t => t.records) with
    | some rs =>
      match rs.find? (fun (r : TeamRecord) =>
          decide (r.rtype = some "total") ||
          decide (r.name.map String.toLower = some "overall")) with
      | some r => firstTruthy [r.summary, r.displayValue]
      | none => none
    | none => none
  (found.getD "N/A")

/-- Per-competitor data assembled by the `competitors.forEach` of
`src/App.js:213-259`. -/
structure TeamData where
  teamName : String
  score : Option Int
  teamLogo : String
  teamRecord : String
  teamOdds : String
  teamNameAbr : Option String
  deriving DecidableEq, Repr, Inhabited

/-- The body of the `competitors.forEach` of `src/App.js:213-259` for one
competitor, given the odds map. -/
def mkTeamData (oddsMap : List (String × Option String)) (comp : Competitor) : TeamData :=
  { teamName :=
      (firstTruthy
        [comp.team.bind (fun t => t.displayName),
         comp.team.bind (fun t => t.shortDisplayName),
         comp.team.bind (fun t => t.abbreviation)]).getD "Unknown Team"
    score := scoreNum comp.score
    teamLogo :=
      (((comp.team.bind (fun t => t.logos)).bind (fun ls => ls.head?)).bind
        (fun l => l.href)).getD ""
    teamRecord := recordOf comp.team
    teamOdds := lookupTeamOdds oddsMap (comp.team.bind (fun t => t.id))
    teamNameAbr := comp.team.bind (fun t => t.abbreviation) }

/-- The competitor whose data survives the `forEach` of `src/App.js:254-258`
for one side: assignments overwrite, so the last matching competitor wins. -/
def lastOfSide (comps : List Competitor) (side : String) : Option Competitor :=
  (comps.filter (fun c => decide (c.homeAway = some side))).getLast?

/-- A normalized game (the record pushed at `src/App.js:309-329`, without the
debug-URL bookkeeping). -/
structure Game where
  name : String
  homeTeam : String
  awayTeam : String
  homeTeamAbr : Option String
  awayTeamAbr : Option String
  homeLogo : String
  awayLogo : String
  homeRecord : String
  awayRecord : String
  homeScore : Disp
  awayScore : Disp
  homeStatus : TeamStatus
  awayStatus : TeamStatus
  homeOdds : String
  awayOdds : String
  deriving DecidableEq, Repr, Inhabited

/-- The body of the `events.forEach` of `src/App.js:145-330` for one event:
`none` when the event is skipped (no competition, fewer than two
competitors, or a side that never resolved a team name), else the pushed
`Game`.  A `TeamData.teamName` is always non-empty (the `'Unknown Team'`
fallback), so the guard of `src/App.js:262` is exactly "no competitor of
that side was seen". -/
def extractOneGame (event : Event) : Option Game :=
  match event.competitions with
  | some (competition :: _) =>
    match competition.competitors with
    | some competitors =>
      if competitors.length < 2 then none
      else
        let awayComp := competitors.find? fun c => decide (c.homeAway = some "away")
        let homeComp := competitors.find? fun c => decide (c.homeAway = some "home")
        let awayId := awayComp.bind fun c => c.team.bind fun t => t.id
        let homeId := homeComp.bind fun c => c.team.bind fun t => t.id
        let oddsMap := buildOddsMap competition.odds awayId homeId
        match (lastOfSide competitors "home").map (mkTeamData oddsMap),
              (lastOfSide competitors "away").map (mkTeamData oddsMap) with
        | some homeData, some awayData =>
          let st := deriveStatus event.statusState homeData.score awayData.score
          some
            { name := jsOr event.name (awayData.teamName ++ " at " ++ homeData.teamName)
              homeTeam := homeData.teamName
              awayTeam := awayData.teamName
              homeTeamAbr := homeData.teamNameAbr
              awayTeamAbr := awayData.teamNameAbr
              homeLogo := homeData.teamLogo
              awayLogo := awayData.teamLogo
              homeRecord := if homeData.teamRecord ≠ "" then homeData.teamRecord else "N/A"
              awayRecord := if awayData.teamRecord ≠ "" then awayData.teamRecord else "N/A"
              homeScore := st.2.1
              awayScore := st.2.2
              homeStatus := st.1.1
              awayStatus := st.1.2
              homeOdds := homeData.teamOdds
              awayOdds := awayData.teamOdds }
        | _, _ => none
    | none => none
  | _ => none

/-- `extractTeams` (`src/App.js:142-333`): one `Game` per surviving event,
preserving input order. -/
def extractTeams (events : List Event) : List Game :=
  events.filterMap extractOneGame

/-- The numeric home score the normalizer sees for an event: the extracted
score of the last home competitor (the value `homeData.score` of
`src/App.js:264`). -/
def homeScoreOf (event : Event) : Option Int :=
  match event.competitions with
  | some (competition :: _) =>
    match competition.competitors with
    | some comps => (lastOfSide comps "home").bind fun c => scoreNum c.score
    | none => none
  | _ => none

/-- The numeric away score the normalizer sees for an event
(`awayData.score` of `src/App.js:265`). -/
def awayScoreOf (event : Event) : Option Int :=
  match event.competitions with
  | some (competition :: _) =>
    match competition.competitors with
    | some comps => (lastOfSide comps "away").bind fun c => scoreNum c.score
    | none => none
  | _ => none

/-! ## Top-level error surfacing (`initializeFetch`, `src/App.js:584-616`) -/

/-- The scoreboard URL used on initial load (`src/App.js:122`). -/
def SCOREBOARD_URL : String :=
  "https://sports.core.api.espn.com/v2/sports/football/leagues/nfl/events"

/-- The outcome `initializeFetch` surfaces: the games list on success, or the
terminal error string it stores (`setError`, `src/App.js:613`). -/
inductive InitResult where
  | success (games : List Game)
  | failure (msg : String)
  deriving DecidableEq, Repr

/-- Message of the zero-games throw (`src/App.js:604`). -/
def emptyResultMsg : String :=
  "The schedule API returned 0 games for the selected Week/Year. Data may not be available yet."

/-- `initializeFetch` (`src/App.js:584-616`): awaits the deep fetch for
`requestedUrl`; `fetchResult` is that awaited outcome (the extracted games,
or the error the fetcher threw).  A deep fetch (any URL other than the
scoreboard URL) that yields zero games throws, and every caught error is
surfaced as the stored terminal error string. -/
def initializeFetch (requestedUrl : String) (fetchResult : Except JsError (List Game)) :
    InitResult :=
  match fetchResult with
  | Except.error e =>
    InitResult.failure ("Failed to retrieve valid game data. Reason: " ++ e.message)
  | Except.ok games =>
    if requestedUrl ≠ SCOREBOARD_URL ∧ games.length = 0 then
      InitResult.failure ("Failed to retrieve valid game data. Reason: " ++ emptyResultMsg)
    else InitResult.success games

/-! ## Claims -/

/-- C1: for every pair of odds lines given to the winner-extraction step of
`transformEvents`: if either line fails to parse as an integer the expected
winner is the sentinel "Toss-Up / N/A" and the line is undefined; if at
least one parsed line is negative the side with the strictly smaller (more
negative) line wins, an equal-value tie falling to the home side via the
comparison's default branch; if both lines are strictly positive the side
with the smaller positive line wins with the same tie-break; if both lines
are zero the winner remains the sentinel. -/
theorem extractWinner_spec (awayAbbr homeAbbr : String) (a h : Option Int) :
    ((a = none ∨ h = none) →
      extractWinner awayAbbr homeAbbr a h = (tossUpSentinel, none)) ∧
    (∀ x y : Int, a = some x → h = some y → (x < 0 ∨ y < 0) →
      ((x < y → extractWinner awayAbbr homeAbbr a h = (awayAbbr, some x)) ∧
       (y ≤ x → extractWinner awayAbbr homeAbbr a h = (homeAbbr, some y)))) ∧
    (∀ x y : Int, a = some x → h = some y → 0 < x → 0 < y →
      ((x < y → extractWinner awayAbbr homeAbbr a h = (awayAbbr, some x)) ∧
       (y ≤ x → extractWinner awayAbbr homeAbbr a h = (homeAbbr, some y)))) ∧
    (a = some 0 → h = some 0 →
      extractWinner awayAbbr homeAbbr a h = (tossUpSentinel, none)) := by
  refine ⟨?_, ?_, ?_, ?_⟩
  · rintro (rfl | rfl)
    · cases h <;> rfl
    · cases a <;> rfl
  · rintro x y rfl rfl hneg
    constructor
    · intro hxy
      simp only [extractWinner]
      rw [if_pos hneg, if_pos hxy]
    · intro hyx
      simp only [extractWinner]
      rw [if_pos hneg, if_neg (by omega)]
  · rintro x y rfl rfl hx hy
    constructor
    · intro hxy
      simp only [extractWinner]
      rw [if_neg (by omega), if_pos ⟨hx, hy⟩, if_pos hxy]
    · intro hyx
      simp only [extractWinner]
      rw [if_neg (by omega), if_pos ⟨hx, hy⟩, if_neg (by omega)]
  · rintro rfl rfl
    rfl

/-- Witness for C1: concrete favorite, underdog, parse-failure and zero
pairs, settled by applying `extractWinner_spec`. -/
theorem extractWinner_spec_witness :
    extractWinner "AWY" "HOM" (some (-150)) (some (-110)) = ("AWY", some (-150)) ∧
    extractWinner "AWY" "HOM" (some (-110)) (some (-110)) = ("HOM", some (-110)) ∧
    extractWinner "AWY" "HOM" (some 120) (some 105) = ("HOM", some 105) ∧
    extractWinner "AWY" "HOM" none (some (-200)) = (tossUpSentinel, none) ∧
    extractWinner "AWY" "HOM" (some 0) (some 0) = (tossUpSentinel, none) := by
  refine ⟨?_, ?_, ?_, ?_, ?_⟩
  · exact ((extractWinner_spec "AWY" "HOM" _ _).2.1 (-150) (-110) rfl rfl
      (by norm_num)).1 (by norm_num)
  · exact ((extractWinner_spec "AWY" "HOM" _ _).2.1 (-110) (-110) rfl rfl
      (by norm_num)).2 (by norm_num)
  · exact ((extractWinner_spec "AWY" "HOM" _ _).2.2.1 120 105 rfl rfl
      (by norm_num) (by norm_num)).2 (by norm_num)
  · exact (extractWinner_spec "AWY" "HOM" _ _).1 (Or.inl rfl)
  · exact (extractWinner_spec "AWY" "HOM" _ _).2.2.2 rfl rfl

/-- C7: status derivation follows the state field exactly: for "post" with
both scores numeric the higher score's side is the winner, equal scores tie,
and the actual numeric scores are displayed; for a present state that is
neither "pre" nor "post" both sides are in progress; for "pre" or an
absent/falsy state both sides are upcoming and the displayed scores are
forced to the dash sentinel even when numeric scores are present. -/
theorem deriveStatus_spec (ss : Option String) (hs as : Option Int) :
    (∀ h a : Int, ss = some "post" → hs = some h → as = some a →
      ((a < h → deriveStatus ss hs as
          = ((TeamStatus.winner, TeamStatus.loser), (Disp.num h, Disp.num a))) ∧
       (h < a → deriveStatus ss hs as
          = ((TeamStatus.loser, TeamStatus.winner), (Disp.num h, Disp.num a))) ∧
       (h = a → deriveStatus ss hs as
          = ((TeamStatus.tie, TeamStatus.tie), (Disp.num h, Disp.num a))))) ∧
    (∀ s : String, ss = some s → s ≠ "" → s ≠ "pre" → s ≠ "post" →
      deriveStatus ss hs as
        = ((TeamStatus.inProgress, TeamStatus.inProgress), (dispOf hs, dispOf as))) ∧
    ((ss = none ∨ ss = some "" ∨ ss = some "pre") →
      deriveStatus ss hs as
        = ((TeamStatus.upcoming, TeamStatus.upcoming), (Disp.dash, Disp.dash))) := by
  refine ⟨?_, ?_, ?_⟩
  · rintro h a rfl rfl rfl
    refine ⟨fun hlt => ?_, fun hlt => ?_, fun heq => ?_⟩
    · simp [deriveStatus, dispOf, hlt]
    · have h1 : ¬ a < h := by omega
      simp [deriveStatus, dispOf, h1, hlt]
    · subst heq
      simp [deriveStatus, dispOf]
  · rintro s rfl hne hpre hpost
    simp [deriveStatus, jsTruthyStr, hne, hpre, hpost]
  · rintro (rfl | rfl | rfl)
    · cases hs <;> cases as <;> rfl
    · cases hs <;> cases as <;> rfl
    · cases hs <;> cases as <;> rfl

/-- Witness for C7: a finished 24-20 game, an in-progress game, and the
end-to-end scenario of a "pre" game whose 0-0 scores are forced to the
dash, all by applying `deriveStatus_spec`. -/
theorem deriveStatus_spec_witness :
    deriveStatus (some "post") (some 24) (some 20)
      = ((TeamStatus.winner, TeamStatus.loser), (Disp.num 24, Disp.num 20)) ∧
    deriveStatus (some "in") (some 10) (some 3)
      = ((TeamStatus.inProgress, TeamStatus.inProgress), (Disp.num 10, Disp.num 3)) ∧
    deriveStatus (some "pre") (some 0) (some 0)
      = ((TeamStatus.upcoming, TeamStatus.upcoming), (Disp.dash, Disp.dash)) := by
  refine ⟨?_, ?_, ?_⟩
  · exact ((deriveStatus_spec (some "post") (some 24) (some 20)).1 24 20 rfl rfl rfl).1
      (by norm_num)
  · exact (deriveStatus_spec (some "in") (some 10) (some 3)).2.1 "in" rfl
      (by decide) (by decide) (by decide)
  · exact (deriveStatus_spec (some "pre") (some 0) (some 0)).2.2 (Or.inr (Or.inr rfl))

/-- Shared helper: in the "post" branch with a missing score the `match`
falls through, leaving both statuses `upcoming` and the known-or-dash
displayed scores (`src/App.js:274-288`). -/
theorem deriveStatus_post_missing (hs as : Option Int) (hmiss : hs = none ∨ as = none) :
    deriveStatus (some "post") hs as
      = ((TeamStatus.upcoming, TeamStatus.upcoming), (dispOf hs, dispOf as)) := by
  rcases hmiss with rfl | rfl
  · cases as <;> rfl
  · cases hs <;> rfl

/-- C10: an event whose `statusState` is "post" but whose home or away score
is missing or non-numeric is still emitted as a `Game`, with both sides'
status left `upcoming` (no winner/loser/tie assigned) and each displayed
score equal to the known numeric value when present, or the dash sentinel
otherwise. -/
theorem extractOneGame_post_missing_score (event : Event) (g : Game)
    (hg : extractOneGame event = some g)
    (hpost : event.statusState = some "post")
    (hmiss : homeScoreOf event = none ∨ awayScoreOf event = none) :
    g.homeStatus = TeamStatus.upcoming ∧ g.awayStatus = TeamStatus.upcoming ∧
    g.homeScore = dispOf (homeScoreOf event) ∧ g.awayScore = dispOf (awayScoreOf event) := by
  unfold extractOneGame at hg
  unfold homeScoreOf awayScoreOf at hmiss ⊢
  rcases hev : event.competitions with _ | ⟨_ | ⟨competition, rest⟩⟩
  · rw [hev] at hg
    simp only at hg
    exact Option.noConfusion hg
  · rw [hev] at hg
    simp only at hg
    exact Option.noConfusion hg
  rw [hev] at hg hmiss
  simp only at hg hmiss ⊢
  rcases hcs : competition.competitors with _ | comps
  · rw [hcs] at hg
    simp only at hg
    exact Option.noConfusion hg
  rw [hcs] at hg hmiss
  simp only at hg hmiss ⊢
  by_cases hlen : comps.length < 2
  · rw [if_pos hlen] at hg
    exact Option.noConfusion hg
  rw [if_neg hlen] at hg
  rcases hhome : lastOfSide comps "home" with _ | hcomp
  · rw [hhome] at hg
    simp only [Option.map_none'] at hg
    exact Option.noConfusion hg
  rcases haway : lastOfSide comps "away" with _ | acomp
  · rw [hhome, haway] at hg
    simp only [Option.map_none', Option.map_some'] at hg
    exact Option.noConfusion hg
  rw [hhome, haway] at hg hmiss
  simp only [Option.map_some', Option.some_bind] at hg hmiss ⊢
  rw [hpost] at hg
  simp only [mkTeamData] at hg
  have hds := deriveStatus_post_missing (scoreNum hcomp.score) (scoreNum acomp.score) hmiss
  rw [hds] at hg
  obtain rfl : _ = g := Option.some.inj hg
  exact ⟨rfl, rfl, rfl, rfl⟩

/-- A concrete "post" event whose home score never resolved. -/
def c10Event : Event :=
  { name := some "AWY at HOM"
    statusState := some "post"
    competitions := some
      [{ competitors := some
          [{ homeAway := some "away"
             team := some
               { id := some "11", displayName := some "Away Team",
                 shortDisplayName := none, abbreviation := some "AWY",
                 logos := none, records := none }
             score := JsScore.numeric 20 },
           { homeAway := some "home"
             team := some
               { id := some "12", displayName := some "Home Team",
                 shortDisplayName := none, abbreviation := some "HOM",
                 logos := none, records := none }
             score := JsScore.missing }]
         odds := none }] }

/-- Witness for C10: the concrete event above is emitted with both sides
`upcoming`, a dash for the unresolved home score and the numeric away
score, by applying `extractOneGame_post_missing_score`. -/
theorem extractOneGame_post_missing_score_witness :
    (extractOneGame c10Event).map Game.homeStatus = some TeamStatus.upcoming ∧
    (extractOneGame c10Event).map Game.awayStatus = some TeamStatus.upcoming ∧
    (extractOneGame c10Event).map Game.homeScore = some Disp.dash ∧
    (extractOneGame c10Event).map Game.awayScore = some (Disp.num 20) := by
  obtain ⟨g, hg⟩ : ∃ g, extractOneGame c10Event = some g := ⟨_, rfl⟩
  have h := extractOneGame_post_missing_score c10Event g hg rfl (Or.inl rfl)
  refine ⟨?_, ?_, ?_, ?_⟩ <;> rw [hg] <;> simp only [Option.map_some']
  · rw [h.1]
  · rw [h.2.1]
  · rw [h.2.2.1]
    rfl
  · rw [h.2.2.2]
    rfl

/-- C5: moneyline formatting prefixes positive values with '+', renders
negative values as-is with no prefix, and an absent (null/undefined or
never-resolved) value surfaces in the emitted game as the sentinel "N/A" —
never as an empty string (and the output type rules out null). -/
theorem formatMoneyLine_spec (n : Int) (m : List (String × Option String))
    (tid : Option String) :
    (0 < n → formatMoneyLine (some n) = some ("+" ++ toString n)) ∧
    (n < 0 → formatMoneyLine (some n) = some (toString n)) ∧
    formatMoneyLine none = none ∧
    lookupTeamOdds m none = "N/A" ∧
    (∀ t, tid = some t → m.lookup t = none → lookupTeamOdds m tid = "N/A") ∧
    (∀ t, tid = some t → m.lookup t = some none → lookupTeamOdds m tid = "N/A") ∧
    lookupTeamOdds m tid ≠ "" := by
  refine ⟨?_, ?_, rfl, rfl, ?_, ?_, ?_⟩
  · intro hn
    simp [formatMoneyLine, hn]
  · intro hn
    have h1 : ¬ 0 < n := by omega
    simp [formatMoneyLine, h1]
  · rintro t rfl hl
    by_cases ht : t = ""
    · subst ht
      rfl
    · simp [lookupTeamOdds, ht, hl]
  · rintro t rfl hl
    by_cases ht : t = ""
    · subst ht
      rfl
    · simp [lookupTeamOdds, ht, hl]
  · rcases tid with _ | t
    · simp [lookupTeamOdds]
    by_cases ht : t = ""
    · subst ht
      simp [lookupTeamOdds]
    simp only [lookupTeamOdds, if_pos ht]
    rcases m.lookup t with _ | ⟨_ | s⟩
    · simp
    · simp
    · by_cases hs : s = ""
      · simp [hs]
      · simp [hs]

/-- Witness for C5, applying `formatMoneyLine_spec` at concrete values. -/
theorem formatMoneyLine_spec_witness :
    formatMoneyLine (some 150) = some "+150" ∧
    formatMoneyLine (some (-130)) = some "-130" ∧
    formatMoneyLine none = none ∧
    lookupTeamOdds [("12", some "+150")] (some "7") = "N/A" ∧
    lookupTeamOdds [("12", none)] none = "N/A" := by
  have h1 := formatMoneyLine_spec 150 ([] : List (String × Option String)) none
  have h2 := formatMoneyLine_spec (-130) [("12", some "+150")] (some "7")
  have h3 := formatMoneyLine_spec 0 [("12", none)] none
  exact ⟨(h1.1 (by norm_num)).trans rfl, (h2.2.1 (by norm_num)).trans rfl,
    h1.2.2.1, h2.2.2.2.2.1 "7" rfl rfl, h3.2.2.2.1⟩

/-- Shared helper: after `k ≤ 4` straight HTTP-error attempts the loop state
is attempt `k`, delay `1000 * 2 ^ k`, with the first `k` backoffs slept. -/
theorem fetchGo_reach {α : Type} (attempts : Nat → Except JsError α) (k : Nat) (hk : k ≤ 4)
    (hprev : ∀ j, j < k → ∃ e, attempts j = Except.error e ∧ isHttpError e = true) :
    fetchGo attempts 5 0 1000 []
      = fetchGo attempts (5 - k) k (1000 * 2 ^ k) ((backoffs k).reverse) := by
  induction k with
  | zero => simp [backoffs]
  | succ k ih =>
    have hk' : k ≤ 4 := by omega
    rw [ih hk' (fun j hj => hprev j (by omega))]
    obtain ⟨e, he, hhttp⟩ := hprev k (by omega)
    have hfuel : 5 - k = (5 - (k + 1)) + 1 := by omega
    rw [hfuel, fetchGo, he]
    have hcond : (isHttpError e && decide (k < 5 - 1)) = true := by
      rw [hhttp]
      simp only [Bool.true_and, decide_eq_true_eq]
      omega
    simp only []
    rw [if_pos hcond]
    have hdelay : 1000 * 2 ^ k * 2 = 1000 * 2 ^ (k + 1) := by ring
    have hback : (backoffs (k + 1)).reverse = 1000 * 2 ^ k :: (backoffs k).reverse := by
      simp [backoffs, List.range_succ]
    rw [hdelay, hback]

/-- C3: the root fetch retries only on an HTTP error, makes at most 5
attempts total, and sleeps exponential backoff of 1000ms doubling each
retry (1s, 2s, 4s, 8s between the five attempts, no jitter); a failure not
classified as an HTTP error propagates immediately with no further attempt
and no further wait.  `k` is the first attempt that does not fail with an
HTTP error. -/
theorem fetchRetry_spec {α : Type} (attempts : Nat → Except JsError α) (k : Nat)
    (hk : k ≤ 4)
    (hprev : ∀ j, j < k → ∃ e, attempts j = Except.error e ∧ isHttpError e = true) :
    (∀ v, attempts k = Except.ok v →
      fetchDeepScheduleRetry attempts = (Except.ok v, backoffs k)) ∧
    (∀ e, attempts k = Except.error e → isHttpError e = false →
      fetchDeepScheduleRetry attempts = (Except.error e, backoffs k)) ∧
    (∀ e, k = 4 → attempts k = Except.error e →
      fetchDeepScheduleRetry attempts = (Except.error e, backoffs 4)) := by
  have hreach := fetchGo_reach attempts k hk hprev
  have hfuel : 5 - k = (4 - k) + 1 := by omega
  refine ⟨?_, ?_, ?_⟩
  · intro v hv
    unfold fetchDeepScheduleRetry
    rw [hreach, hfuel, fetchGo, hv]
    simp only []
    rw [List.reverse_reverse]
  · intro e he hne
    unfold fetchDeepScheduleRetry
    rw [hreach, hfuel, fetchGo, he]
    simp only []
    rw [if_neg (by simp [hne])]
    rw [List.reverse_reverse]
  · rintro e rfl he
    unfold fetchDeepScheduleRetry
    rw [hreach, hfuel, fetchGo, he]
    simp only []
    rw [if_neg (by simp)]
    rw [List.reverse_reverse]

/-- Attempt streams used by the retry witnesses. -/
def witAttempts : Nat → Except JsError Nat := fun i =>
  if i = 0 then Except.error (JsError.httpError 503 "Service Unavailable")
  else Except.ok 7

/-- A transport-level failure on the very first attempt. -/
def witAttemptsTransport : Nat → Except JsError Nat := fun _ =>
  Except.error (JsError.otherError "Failed to fetch")

/-- Witness for C3: one 503 then success yields the result after a single
1000ms backoff; a transport failure propagates at once with no backoff.
Both by applying `fetchRetry_spec`. -/
theorem fetchRetry_spec_witness :
    fetchDeepScheduleRetry witAttempts = (Except.ok 7, [1000]) ∧
    fetchDeepScheduleRetry witAttemptsTransport
      = (Except.error (JsError.otherError "Failed to fetch"), []) := by
  constructor
  · have h := (fetchRetry_spec witAttempts 1 (by omega)
      (fun j hj => ⟨JsError.httpError 503 "Service Unavailable", by
        have hj0 : j = 0 := by omega
        rw [hj0]
        exact ⟨rfl, rfl⟩⟩)).1 7 rfl
    exact h.trans (by rfl)
  · have h := (fetchRetry_spec witAttemptsTransport 0 (by omega)
      (fun j hj => absurd hj (by omega))).2.1
      (JsError.otherError "Failed to fetch") rfl rfl
    exact h.trans (by rfl)

/-- Five straight HTTP errors: 500, 501, 502, 503, 504. -/
def allHttpAttempts : Nat → Except JsError Nat := fun i =>
  Except.error (JsError.httpError (500 + i) "Server Error")

/-- Counterexample to C4: with five straight HTTP errors the fetcher's
result is the last underlying HTTP error itself (status 504 here), which is
not the distinct ExhaustedRetries error the claim requires — the throw
after the loop (`src/App.js:578`) is dead code, because the final
iteration's catch rethrows the HTTP error instead. -/
theorem fetchRetry_exhausted_cex :
    (fetchDeepScheduleRetry allHttpAttempts).1
      = Except.error (JsError.httpError 504 "Server Error") ∧
    (Except.error (JsError.httpError 504 "Server Error") : Except JsError Nat)
      ≠ Except.error (JsError.otherError exhaustedRetriesMsg) := by
  constructor
  · rfl
  · simp

/-- C4 (amended): when all five attempts fail with HTTP errors the fetcher
propagates the last underlying HTTP error itself, after the four backoffs;
the distinct ExhaustedRetries error after the loop is unreachable, so a
caller cannot distinguish "gave up after retries" from the server's last
error. -/
theorem fetchRetry_allHttp_last {α : Type} (attempts : Nat → Except JsError α)
    (h : ∀ j, j < 5 → ∃ s t, attempts j = Except.error (JsError.httpError s t)) :
    (fetchDeepScheduleRetry attempts).1 = attempts 4 ∧
    (∀ m, (fetchDeepScheduleRetry attempts).1 ≠ Except.error (JsError.otherError m)) ∧
    (fetchDeepScheduleRetry attempts).2 = backoffs 4 := by
  obtain ⟨s, t, h4⟩ := h 4 (by omega)
  have hres := ((fetchRetry_spec attempts 4 (by omega)
    (fun j hj => by
      obtain ⟨s', t', hj'⟩ := h j (by omega)
      exact ⟨JsError.httpError s' t', hj', rfl⟩)).2.2)
    (JsError.httpError s t) rfl h4
  rw [hres]
  refine ⟨h4.symm, ?_, rfl⟩
  intro m
  simp

/-- Witness for C4's amended theorem, applying `fetchRetry_allHttp_last` to
the concrete all-HTTP-error attempt stream. -/
theorem fetchRetry_allHttp_last_witness :
    (fetchDeepScheduleRetry allHttpAttempts).1 = allHttpAttempts 4 ∧
    (fetchDeepScheduleRetry allHttpAttempts).2 = backoffs 4 := by
  have h := fetchRetry_allHttp_last allHttpAttempts
    (fun j hj => ⟨500 + j, "Server Error", rfl⟩)
  exact ⟨h.1, h.2.2⟩

/-- Counterexample to C8: the initial scoreboard request
(`requestedUrl = SCOREBOARD_URL`) that resolves successfully to zero usable
games returns an empty success, not a terminal error — the zero-games throw
of `src/App.js:603-605` is guarded by `isDeepFetch`. -/
theorem initializeFetch_empty_scoreboard_cex :
    initializeFetch SCOREBOARD_URL (Except.ok []) = InitResult.success [] ∧
    InitResult.success []
      ≠ InitResult.failure ("Failed to retrieve valid game data. Reason: " ++ emptyResultMsg) := by
  constructor
  · rfl
  · simp

/-- C8 (amended): for deep (non-scoreboard) requests a structurally complete
resolution with zero usable games, like any fetch failure (including the
initial fetch giving up), is surfaced as a terminal error carrying a
human-readable reason string; the initial scoreboard request, however,
returns an empty success when zero games resolve. -/
theorem initializeFetch_spec (url : String) (fr : Except JsError (List Game)) :
    (∀ e, fr = Except.error e → initializeFetch url fr
      = InitResult.failure ("Failed to retrieve valid game data. Reason: " ++ e.message)) ∧
    (url ≠ SCOREBOARD_URL → fr = Except.ok [] → initializeFetch url fr
      = InitResult.failure ("Failed to retrieve valid game data. Reason: " ++ emptyResultMsg)) ∧
    (∀ games, fr = Except.ok games → games ≠ [] →
      initializeFetch url fr = InitResult.success games) ∧
    (fr = Except.ok [] → url = SCOREBOARD_URL →
      initializeFetch url fr = InitResult.success []) := by
  refine ⟨?_, ?_, ?_, ?_⟩
  · rintro e rfl
    rfl
  · rintro hurl rfl
    simp [initializeFetch, hurl]
  · rintro games rfl hne
    have hlen : games.length ≠ 0 := by
      simpa using hne
    simp [initializeFetch, hlen]
  · rintro rfl rfl
    simp [initializeFetch]

/-- Witness for C8's amended theorem at concrete inputs, applying
`initializeFetch_spec`. -/
theorem initializeFetch_spec_witness :
    initializeFetch "https://example.invalid/week" (Except.ok [])
      = InitResult.failure ("Failed to retrieve valid game data. Reason: " ++ emptyResultMsg) ∧
    initializeFetch SCOREBOARD_URL
        (Except.error (JsError.httpError 503 "Service Unavailable"))
      = InitResult.failure
          "Failed to retrieve valid game data. Reason: HTTP Error 503: Service Unavailable" := by
  constructor
  · exact (initializeFetch_spec "https://example.invalid/week" (Except.ok [])).2.1
      (by decide) rfl
  · exact ((initializeFetch_spec SCOREBOARD_URL
      (Except.error (JsError.httpError 503 "Service Unavailable"))).1
      (JsError.httpError 503 "Service Unavailable") rfl).trans rfl

/-- Shared helper: a JS property assignment leaves the map with the assigned
value under the assigned key. -/
theorem lookup_mapSet (m : List (String × Option String)) (k : String) (v : Option String) :
    (mapSet m k v).lookup k = some v := by
  induction m with
  | nil => simp [mapSet, List.lookup]
  | cons p m ih =>
    by_cases hpk : p.1 = k
    · have hsome : (List.lookup k (p :: m)).isSome = true := by
        rcases p with ⟨pk, pv⟩
        simp only at hpk
        subst hpk
        simp [List.lookup_cons]
      simp only [mapSet, hsome, if_true, List.map_cons, if_pos hpk]
      simp [List.lookup_cons]
    · rcases hl : List.lookup k (p :: m) with _ | w
      · have hlm : List.lookup k m = none := by
          rcases p with ⟨pk, pv⟩
          simp only at hpk
          rw [List.lookup_cons] at hl
          have hbeq : (k == pk) = false := by
            simp [BEq.beq]
            exact fun hk => hpk hk.symm
          rw [hbeq] at hl
          exact hl
        have hcond : (List.lookup k (p :: m)).isSome = false := by
          rw [hl]
          rfl
        simp only [mapSet, hcond, Bool.false_eq_true, if_false, List.cons_append]
        rcases p with ⟨pk, pv⟩
        simp only at hpk
        rw [List.lookup_cons]
        have hbeq : (k == pk) = false := by
          simp [BEq.beq]
          exact fun hk => hpk hk.symm
        rw [hbeq]
        have ihm : (mapSet m k v).lookup k = some v := ih
        rw [mapSet, hlm] at ihm
        simpa using ihm
      · have hcond : (List.lookup k (p :: m)).isSome = true := by
          rw [hl]
          rfl
        have hlm : List.lookup k m = some w := by
          rcases p with ⟨pk, pv⟩
          simp only at hpk
          rw [List.lookup_cons] at hl
          have hbeq : (k == pk) = false := by
            simp [BEq.beq]
            exact fun hk => hpk hk.symm
          rw [hbeq] at hl
          exact hl
        simp only [mapSet, hcond, if_true, List.map_cons, if_neg hpk]
        rcases p with ⟨pk, pv⟩
        simp only at hpk
        rw [List.lookup_cons]
        have hbeq : (k == pk) = false := by
          simp [BEq.beq]
          exact fun hk => hpk hk.symm
        rw [hbeq]
        have ihm : (mapSet m k v).lookup k = some v := ih
        rw [mapSet] at ihm
        have hsm : (List.lookup k m).isSome = true := by
          rw [hlm]
          rfl
        rw [hsm] at ihm
        simpa using ihm

/-- Shared helper: a JS property assignment never leaves the map empty. -/
theorem mapSet_ne_nil (m : List (String × Option String)) (k : String) (v : Option String) :
    mapSet m k v ≠ [] := by
  unfold mapSet
  by_cases hc : (List.lookup k m).isSome = true
  · rw [if_pos hc]
    intro hmap
    have hm : m = [] := by
      have := congrArg List.length hmap
      simpa using this
    rw [hm] at hc
    simp [List.lookup] at hc
  · rw [if_neg hc]
    simp

/-- C6: odds lookup uses index 0 of the odds list as the primary entry,
takes `items[0]` as the detail source when a non-empty `items` array is
present and the entry itself otherwise; per team it reads the moneyline
from the first non-`undefined` of the two casings (PascalCase `Moneyline`
before camelCase `moneyLine`); and it consults the flat fallback array only
when the primary path produced no entries at all. -/
theorem buildOddsMap_spec (primaryOdds : OddsEntry) (rest : List OddsEntry)
    (awayId homeId : Option String) :
    buildOddsMap (some (primaryOdds :: rest)) awayId homeId
      = buildOddsMap (some [primaryOdds]) awayId homeId ∧
    (∀ x xs, primaryOdds.items = some (x :: xs) → oddsSourceOf primaryOdds = x) ∧
    ((primaryOdds.items = none ∨ primaryOdds.items = some []) →
      oddsSourceOf primaryOdds = primaryOdds.source) ∧
    (∀ fields v, fields.Moneyline = some v → selectML fields = some v) ∧
    (∀ fields, fields.Moneyline = none → selectML fields = fields.moneyLine) ∧
    (∀ t fields v, homeId = some t → t ≠ "" →
      (oddsSourceOf primaryOdds).homeTeamOdds = some fields → selectML fields = some v →
      (buildOddsMap (some (primaryOdds :: rest)) awayId homeId).lookup t
        = some (formatMoneyLine v)) ∧
    (insertTeamOdds (insertTeamOdds [] awayId (oddsSourceOf primaryOdds).awayTeamOdds)
        homeId (oddsSourceOf primaryOdds).homeTeamOdds ≠ [] →
      buildOddsMap (some (primaryOdds :: rest)) awayId homeId
        = insertTeamOdds (insertTeamOdds [] awayId (oddsSourceOf primaryOdds).awayTeamOdds)
            homeId (oddsSourceOf primaryOdds).homeTeamOdds) ∧
    (insertTeamOdds (insertTeamOdds [] awayId (oddsSourceOf primaryOdds).awayTeamOdds)
        homeId (oddsSourceOf primaryOdds).homeTeamOdds = [] →
      buildOddsMap (some (primaryOdds :: rest)) awayId homeId
        = (primaryOdds.moneyLine.getD []).foldl fallbackStep []) := by
  refine ⟨rfl, ?_, ?_, ?_, ?_, ?_, ?_, ?_⟩
  · intro x xs hx
    simp [oddsSourceOf, hx]
  · rintro (hx | hx) <;> simp [oddsSourceOf, hx]
  · intro fields v hv
    simp [selectML, hv]
  · intro fields hv
    simp [selectML, hv]
  · rintro t fields v rfl htne hfields hsel
    simp only [buildOddsMap]
    rw [hfields]
    simp only [insertTeamOdds]
    rw [if_pos htne, hsel]
    simp only []
    rw [if_neg (by
      simp only [List.isEmpty_iff]
      exact mapSet_ne_nil _ _ _)]
    exact lookup_mapSet _ _ _
  · intro hne
    simp only [buildOddsMap]
    rw [if_neg (by
      simp only [List.isEmpty_iff]
      exact hne)]
  · intro heq
    simp only [buildOddsMap]
    rw [heq]
    rcases hml : primaryOdds.moneyLine with _ | mls
    · simp
    · simp

/-- A primary odds entry with only a PascalCase home moneyline of -130 and a
flat fallback array that must be ignored. -/
def c6Primary : OddsEntry :=
  { source :=
      { awayTeamOdds := some { Moneyline := none, moneyLine := some (some 150) }
        homeTeamOdds := some { Moneyline := some (some (-130)), moneyLine := none } }
    items := none
    moneyLine := some [{ targetId := some "99", moneyLine := some (some 700) }] }

/-- Witness for C6: the entry above formats the home odds as "-130" (no '+',
no camelCase duplication, fallback untouched), by applying
`buildOddsMap_spec`. -/
theorem buildOddsMap_spec_witness :
    (buildOddsMap (some [c6Primary]) (some "11") (some "12")).lookup "12"
      = some (some "-130") := by
  have h := (buildOddsMap_spec c6Primary [] (some "11") (some "12")).2.2.2.2.2.1
    "12" { Moneyline := some (some (-130)), moneyLine := none } (some (-130))
    rfl (by decide) rfl rfl
  exact h.trans (by rfl)

/-- Erase the mutable `confidenceRank` field (for comparing events up to the
rank the ranker assigns). -/
def eraseRank (e : REvent) : REvent := { e with confidenceRank := none }

/-- Shared helper: setting an index back to its own value is a no-op. -/
theorem set_getElem_self_list {β : Type} (l : List β) (i : Nat) (h : i < l.length) :
    l.set i l[i] = l := by
  apply List.ext_getElem?
  intro j
  by_cases hj : j = i
  · subst hj
    rw [List.getElem?_set_self h, List.getElem?_eq_getElem h]
  · rw [List.getElem?_set_ne (fun hh => hj hh.symm)]

/-- Shared helper: `getD` commutes with `map eraseRank` (the default erases
to itself). -/
theorem map_eraseRank_getD (l : List REvent) (i : Nat) :
    (l.map eraseRank).getD i default = eraseRank (l.getD i default) := by
  by_cases h : i < l.length
  · rw [List.getD_eq_getElem?_getD, List.getD_eq_getElem?_getD, List.getElem?_map,
      List.getElem?_eq_getElem h]
    rfl
  · rw [List.getD_eq_getElem?_getD, List.getD_eq_getElem?_getD,
      List.getElem?_eq_none (by simpa using not_lt.mp h),
      List.getElem?_eq_none (not_lt.mp h)]
    rfl

/-- Shared helper: the rank-writing fold changes nothing but
`confidenceRank`: the input list mapped through `eraseRank` is invariant. -/
theorem foldl_rankWrite_map_eraseRank (n : Nat) (ps : List (Nat × Nat)) (acc : List REvent) :
    (ps.foldl (rankWrite n) acc).map eraseRank = acc.map eraseRank := by
  induction ps generalizing acc with
  | nil => rfl
  | cons p ps ih =>
    rw [List.foldl_cons, ih]
    unfold rankWrite
    by_cases hlt : p.2 < acc.length
    · rw [List.map_set]
      have h1 : eraseRank { acc.getD p.2 default with
          confidenceRank := some ((n : Int) - (p.1 : Int)) }
          = (acc.map eraseRank).getD p.2 default := by
        rw [map_eraseRank_getD]
        rfl
      rw [h1]
      have h2 : p.2 < (acc.map eraseRank).length := by simpa using hlt
      have h3 : (acc.map eraseRank).getD p.2 default = (acc.map eraseRank)[p.2] := by
        rw [List.getD_eq_getElem?_getD, List.getElem?_eq_getElem h2]
        rfl
      rw [h3, set_getElem_self_list _ _ h2]
    · rw [List.set_eq_of_length_le (not_lt.mp hlt)]

/-- Shared helper: the rank-writing fold leaves every index it never writes
untouched. -/
theorem foldl_rankWrite_getD_of_ne (n : Nat) (ps : List (Nat × Nat)) (acc : List REvent)
    (i : Nat) (h : ∀ p ∈ ps, p.2 ≠ i) :
    (ps.foldl (rankWrite n) acc).getD i default = acc.getD i default := by
  induction ps generalizing acc with
  | nil => rfl
  | cons p ps ih =>
    rw [List.foldl_cons, ih _ (fun q hq => h q (List.mem_cons_of_mem _ hq))]
    unfold rankWrite
    rw [List.getD_eq_getElem?_getD, List.getD_eq_getElem?_getD,
      List.getElem?_set_ne (h p (List.mem_cons_self _ _)),
      ← List.getD_eq_getElem?_getD]

/-- A rankable event with its `confidenceRank` still unset. -/
def c9Event : REvent :=
  { id := "401", awayTeam := "DAL", homeTeam := "PHI", awayOdds := some "-100",
    homeOdds := some "+120", expectedWinner := "DAL", winnerLine := some (-100),
    status := "Sat, 4:30 PM", confidenceRank := none }

/-- A non-rankable (sentinel) event. -/
def c9TossUp : REvent :=
  { id := "402", awayTeam := "NYJ", homeTeam := "MIA", awayOdds := none,
    homeOdds := none, expectedWinner := tossUpSentinel, winnerLine := none,
    status := "Sun, 1:00 PM", confidenceRank := none }

/-- Counterexample to C9: ranking the one-element list holding `c9Event`
writes `confidenceRank := 1` through to the caller's element, so the input
list's elements are not unchanged after the call. -/
theorem rankEventsPost_mutates_cex : rankEventsPost [c9Event] ≠ [c9Event] := by
  have h1 : rankEventsPost [c9Event] = [{ c9Event with confidenceRank := some 1 }] := by
    unfold rankEventsPost
    simp only [List.length_cons, List.length_nil, List.range_succ, List.range_zero,
      List.nil_append, List.filter_cons, List.filter_nil]
    rw [if_pos (by decide)]
    rw [List.mergeSort_singleton]
    simp only [List.enum]
    rfl
  rw [h1]
  intro h
  have h2 := List.head_eq_of_cons_eq h
  have h3 := congrArg REvent.confidenceRank h2
  simp [c9Event] at h3

/-- C9 (amended): the ranker is deterministic (a pure function of its
input) and `rankEvents` preserves the caller's list in length, order and
every field other than `confidenceRank`, and leaves non-rankable elements
wholly unchanged — but it does mutate the `confidenceRank` of each rankable
element of the input list in place. -/
theorem rankEventsPost_spec (events : List REvent) :
    (rankEventsPost events).map eraseRank = events.map eraseRank ∧
    (rankEventsPost events).length = events.length ∧
    (∀ i, i < events.length → isRankable (events.getD i default) = false →
      (rankEventsPost events).getD i default = events.getD i default) := by
  have h1 : (rankEventsPost events).map eraseRank = events.map eraseRank :=
    foldl_rankWrite_map_eraseRank _ _ _
  refine ⟨h1, ?_, ?_⟩
  · have h := congrArg List.length h1
    simpa using h
  · intro i hi hnr
    apply foldl_rankWrite_getD_of_ne
    intro p hp hpi
    have hmem : p.2 ∈ (((List.range events.length).filter fun i =>
        isRankable (events.getD i default)).mergeSort fun i j =>
          rankLE (events.getD i default) (events.getD j default)) := by
      have := List.mem_map_of_mem Prod.snd hp
      rwa [List.enum_map_snd] at this
    rw [List.mem_mergeSort, List.mem_filter] at hmem
    rw [hpi] at hmem
    rw [hmem.2] at hnr
    exact Bool.noConfusion hnr

/-- Witness for C9's amended theorem: on a concrete two-element list the
fields other than `confidenceRank` are unchanged and the non-rankable
element is wholly unchanged, by applying `rankEventsPost_spec`. -/
theorem rankEventsPost_spec_witness :
    (rankEventsPost [c9Event, c9TossUp]).map eraseRank = [c9Event, c9TossUp].map eraseRank ∧
    (rankEventsPost [c9Event, c9TossUp]).getD 1 default = c9TossUp := by
  have h := rankEventsPost_spec [c9Event, c9TossUp]
  refine ⟨h.1, ?_⟩
  have h2 := h.2.2 1 (by decide) (by decide)
  rw [h2]
  rfl

/-- The comparator is transitive. -/
theorem rankLE_trans (a b c : REvent) (hab : rankLE a b = true) (hbc : rankLE b c = true) :
    rankLE a c = true := by
  simp only [rankLE, decide_eq_true_eq] at hab hbc ⊢
  exact le_trans hab hbc

/-- The comparator is total. -/
theorem rankLE_total (a b : REvent) : (rankLE a b || rankLE b a) = true := by
  simp only [rankLE, Bool.or_eq_true, decide_eq_true_eq]
  exact le_total _ _

/-- Shared helper: assigning ranks then erasing them is the identity on the
sorted list. -/
theorem enum_assign_map_eraseRank (S : List REvent) (n : Nat) :
    ((S.enum.map fun p =>
        { p.2 with confidenceRank := some ((n : Int) - (p.1 : Int)) }).map eraseRank)
      = S.map eraseRank := by
  rw [List.map_map]
  have h : (eraseRank ∘ fun p : Nat × REvent =>
      { p.2 with confidenceRank := some ((n : Int) - (p.1 : Int)) })
      = eraseRank ∘ Prod.snd := rfl
  rw [h, ← List.map_map, List.enum_map_snd]

/-- Shared helper: the assigned ranks, in order, are `n - index`. -/
theorem enum_assign_map_rank (S : List REvent) (n : Nat) :
    ((S.enum.map fun p =>
        { p.2 with confidenceRank := some ((n : Int) - (p.1 : Int)) }).map
      fun e => e.confidenceRank)
      = (List.range S.length).map fun (i : Nat) => some ((n : Int) - (i : Int)) := by
  rw [List.map_map]
  have h : ((fun e : REvent => e.confidenceRank) ∘ fun p : Nat × REvent =>
      { p.2 with confidenceRank := some ((n : Int) - (p.1 : Int)) })
      = (fun i : Nat => some ((n : Int) - (i : Int))) ∘ Prod.fst := rfl
  rw [h, ← List.map_map, List.enum_map_fst]

/-- C2: `rankEvents` filters to events with a non-sentinel winner and a
defined line, stably sorts them ascending by `winnerLine` (ties keep the
filtered list's relative order), and assigns `confidenceRank = N - index`;
the assigned ranks are exactly `N, N-1, …, 1` in sorted order — a bijection
onto `{1, …, N}` — with the most negative line first (rank `N`, minimal
line) and the weakest favorite receiving rank 1. -/
theorem rankEvents_spec (events : List REvent) :
    (rankEvents events).map eraseRank
      = ((events.filter isRankable).mergeSort rankLE).map eraseRank ∧
    List.Pairwise (fun a b => lineKey a ≤ lineKey b) (rankEvents events) ∧
    ((rankEvents events).map eraseRank).Perm ((events.filter isRankable).map eraseRank) ∧
    (∀ a b : REvent, List.Sublist [a, b] (events.filter isRankable) →
      lineKey a ≤ lineKey b →
      List.Sublist [eraseRank a, eraseRank b] ((rankEvents events).map eraseRank)) ∧
    (rankEvents events).map (fun e => e.confidenceRank)
      = (List.range (rankEvents events).length).map
          (fun (i : Nat) => some (((rankEvents events).length : Int) - (i : Int))) ∧
    (∀ r : Int, (some r ∈ (rankEvents events).map fun e => e.confidenceRank) ↔
      1 ≤ r ∧ r ≤ ((rankEvents events).length : Int)) ∧
    (∀ e₀ : REvent, (rankEvents events).head? = some e₀ →
      e₀.confidenceRank = some ((rankEvents events).length : Int) ∧
      ∀ e ∈ rankEvents events, lineKey e₀ ≤ lineKey e) := by
  have htrans : ∀ a b c : REvent, rankLE a b = true → rankLE b c = true →
      rankLE a c = true := rankLE_trans
  have htotal : ∀ a b : REvent, (rankLE a b || rankLE b a) = true := rankLE_total
  have h1 : (rankEvents events).map eraseRank
      = ((events.filter isRankable).mergeSort rankLE).map eraseRank :=
    enum_assign_map_eraseRank ((events.filter isRankable).mergeSort rankLE)
      ((events.filter isRankable).mergeSort rankLE).length
  have hlen : (rankEvents events).length
      = ((events.filter isRankable).mergeSort rankLE).length := by
    unfold rankEvents
    rw [List.length_map, List.enum_length]
  have hsorted : ((events.filter isRankable).mergeSort rankLE).Pairwise
      (fun a b => rankLE a b = true) :=
    List.sorted_mergeSort htrans htotal (events.filter isRankable)
  have hpair : List.Pairwise (fun a b => lineKey a ≤ lineKey b) (rankEvents events) := by
    unfold rankEvents
    rw [List.pairwise_map]
    have h := hsorted
    rw [← List.enum_map_snd ((events.filter isRankable).mergeSort rankLE),
      List.pairwise_map] at h
    exact h.imp (fun hab => by simpa [rankLE] using hab)
  have h5 : (rankEvents events).map (fun e => e.confidenceRank)
      = (List.range (rankEvents events).length).map
          (fun (i : Nat) => some (((rankEvents events).length : Int) - (i : Int))) := by
    rw [hlen]
    exact enum_assign_map_rank ((events.filter isRankable).mergeSort rankLE)
      ((events.filter isRankable).mergeSort rankLE).length
  refine ⟨h1, hpair, ?_, ?_, h5, ?_, ?_⟩
  · rw [h1]
    exact (List.mergeSort_perm (events.filter isRankable) rankLE).map eraseRank
  · intro a b hsub hle
    have hab : rankLE a b = true := decide_eq_true hle
    have h4 := List.pair_sublist_mergeSort htrans htotal hab hsub
    have h4m := h4.map eraseRank
    rw [h1]
    exact h4m
  · intro r
    rw [h5]
    constructor
    · intro hr
      obtain ⟨i, hi, hir⟩ := List.mem_map.mp hr
      rw [List.mem_range] at hi
      have heq := Option.some.inj hir
      omega
    · rintro ⟨hr1, hr2⟩
      apply List.mem_map.mpr
      refine ⟨((((rankEvents events).length : Int) - r).toNat), ?_, ?_⟩
      · rw [List.mem_range]
        omega
      · congr 1
        omega
  · intro e₀ hhead
    obtain ⟨tl, hout⟩ : ∃ tl, rankEvents events = e₀ :: tl := by
      cases hre : rankEvents events with
      | nil =>
        rw [hre] at hhead
        exact absurd hhead (by simp)
      | cons x tl =>
        rw [hre] at hhead
        have hx : x = e₀ := Option.some.inj hhead
        subst hx
        exact ⟨tl, rfl⟩
    constructor
    · have h5' := h5
      rw [hout] at h5'
      have hlen1 : (e₀ :: tl).length = tl.length + 1 := rfl
      rw [hlen1, List.range_succ_eq_map, List.map_cons, List.map_cons] at h5'
      have hh := List.head_eq_of_cons_eq h5'
      rw [hout, hlen1, hh]
      simp
    · intro e he
      rw [hout] at hpair he
      rcases List.mem_cons.mp he with rfl | he'
      · exact le_refl _
      · exact (List.pairwise_cons.mp hpair).1 e he'

/-- Strongest favorite (line -150) in a concrete ranking input. -/
def c2a : REvent :=
  { id := "501", awayTeam := "KC", homeTeam := "LV", awayOdds := some "-150",
    homeOdds := some "+130", expectedWinner := "KC", winnerLine := some (-150),
    status := "Sun", confidenceRank := none }

/-- Weaker favorite (line -110) in the same input. -/
def c2b : REvent :=
  { id := "502", awayTeam := "SF", homeTeam := "SEA", awayOdds := some "+105",
    homeOdds := some "-110", expectedWinner := "SEA", winnerLine := some (-110),
    status := "Sun", confidenceRank := none }

/-- A sentinel (unrankable) event in the same input. -/
def c2c : REvent :=
  { id := "503", awayTeam := "NYJ", homeTeam := "MIA", awayOdds := none,
    homeOdds := none, expectedWinner := tossUpSentinel, winnerLine := none,
    status := "Sun", confidenceRank := none }

/-- Witness for C2 on the concrete three-event input (two rankable, one
sentinel), applying `rankEvents_spec`: the relative order of the two
favorites is kept, rank 2 is assigned, and the head (most negative line)
carries the maximal rank `N = 2`. -/
theorem rankEvents_spec_witness :
    List.Sublist [eraseRank c2a, eraseRank c2b]
      ((rankEvents [c2a, c2b, c2c]).map eraseRank) ∧
    (some 2 ∈ (rankEvents [c2a, c2b, c2c]).map fun e => e.confidenceRank) ∧
    ({ c2a with confidenceRank := some 2 } : REvent).confidenceRank
      = some ((rankEvents [c2a, c2b, c2c]).length : Int) := by
  have h := rankEvents_spec [c2a, c2b, c2c]
  have hlen : (rankEvents [c2a, c2b, c2c]).length = 2 := by
    simp [rankEvents, List.enum_length, isRankable, c2a, c2b, c2c, tossUpSentinel]
  refine ⟨?_, ?_, ?_⟩
  · exact h.2.2.2.1 c2a c2b (by decide) (by decide)
  · refine (h.2.2.2.2.2.1 2).mpr ?_
    rw [hlen]
    norm_num
  · have hhead : (rankEvents [c2a, c2b, c2c]).head? = some { c2a with confidenceRank := some 2 } := by
      simp [rankEvents, List.mergeSort, isRankable, rankLE, lineKey, c2a, c2b, c2c, tossUpSentinel]
    exact ((h.2.2.2.2.2.2 { c2a with confidenceRank := some 2 } hhead).1)
